import Mathlib

/-!
Shallow embedding of the SEO audit engine in `audit.py` (class `SEOAudit`).

Relative filesystem paths are represented as Lean `String`s with `/` as the
separator, exactly as the Python code manipulates them.  Python standard
library string and path helpers (`str.startswith`, `os.path.dirname`,
`os.path.splitext`, `os.path.join`, `os.path.relpath`, `urllib.parse.urlparse`
path extraction) are modelled by explicit executable functions on the
underlying character lists, each documented with the library call it models.
The filesystem itself (queried through `os.path.isfile` / `os.path.isdir`) is
an oracle given by two boolean predicates on path strings, and the network
used by the external-link prober is an oracle from a URL to either a status
code or a transport-level exception message.
-/

/-! ### Definitions -/

/-- python: `s.startswith(p)`. -/
def strStarts (p s : String) : Bool := p.data.isPrefixOf s.data

/-- python: `s.endswith(p)`. -/
def strEnds (p s : String) : Bool := p.data.isSuffixOf s.data

/-- Contiguous-sublist test on character lists. -/
def listInfix (p : List Char) : List Char → Bool
  | [] => p.isPrefixOf []
  | c :: rest => p.isPrefixOf (c :: rest) || listInfix p rest

/-- python: `p in s` (substring containment). -/
def containsSub (p s : String) : Bool := listInfix p.data s.data

/-- python: `s.split('#')[0].split('?')[0]` — the part of `s` before the
first `#`, then before the first `?`. -/
def stripFragQuery (s : String) : String :=
  ⟨(s.data.takeWhile (fun c => c ≠ '#')).takeWhile (fun c => c ≠ '?')⟩

/-- python: `s.lstrip('/')`. -/
def lstripSlashes (s : String) : String := ⟨s.data.dropWhile (fun c => c = '/')⟩

/-- python: `s.rstrip('/')`. -/
def rstripSlashes (s : String) : String :=
  ⟨(s.data.reverse.dropWhile (fun c => c = '/')).reverse⟩

/-- python: `os.path.join(a, b)` for POSIX paths, two arguments:
if `b` is absolute the result is `b`; otherwise `b` is appended to `a`,
inserting a `/` unless `a` is empty or already ends in `/`. -/
def pjoin (a b : String) : String :=
  if strStarts "/" b then b
  else if a = "" ∨ strEnds "/" a then a ++ b
  else a ++ "/" ++ b

/-- python: `os.path.dirname(p)` for POSIX paths: everything up to and
including the last `/`, then (when that head is neither empty nor all
slashes) with trailing slashes stripped. -/
def dirname (p : String) : String :=
  let r := p.data.reverse.takeWhile (fun c => c ≠ '/')
  if r.length = p.data.length then ""
  else
    let head := p.data.take (p.data.length - r.length)
    if head.all (fun c => c = '/') then ⟨head⟩
    else ⟨(head.reverse.dropWhile (fun c => c = '/')).reverse⟩

/-- python: `os.path.basename(p)` for POSIX paths: everything after the
last `/`. -/
def basename (p : String) : String :=
  ⟨(p.data.reverse.takeWhile (fun c => c ≠ '/')).reverse⟩

/-- python: `os.path.splitext(p)[0]` for POSIX paths: the extension starts at
the last dot, provided that dot lies in the final path component and the part
of that component before the dot is not made of dots only; otherwise the whole
path is returned. -/
def splitextRoot (p : String) : String :=
  let rev := p.data.reverse
  let afterDot := rev.takeWhile (fun c => c ≠ '.')
  if afterDot.length = rev.length then p
  else if afterDot.contains '/' then p
  else
    let rootRev := rev.drop (afterDot.length + 1)
    if (rootRev.takeWhile (fun c => c ≠ '/')).all (fun c => c = '.') then p
    else ⟨rootRev.reverse⟩

/-- python: `s.replace('//', '/')` — scan left to right, each (non
overlapping) occurrence of `//` becomes `/`, continuing after the
replacement. -/
def collapseSlashesAux : List Char → List Char
  | [] => []
  | [c] => [c]
  | a :: b :: rest =>
    if a = '/' ∧ b = '/' then '/' :: collapseSlashesAux rest
    else a :: collapseSlashesAux (b :: rest)

/-- python: `s.replace('//', '/')` on strings. -/
def collapseSlashes (s : String) : String := ⟨collapseSlashesAux s.data⟩

/-- The page-id derivation applied to a relative path, exactly as it appears
twice in `audit.py`: in `scan_files` (lines 97–106) and in
`check_internal_link` (lines 229–235).  If the filename is `index.html` the
id is `/` plus the parent directory (with `/.` fixed to `/`); otherwise it is
`/` plus the extension-stripped relative path; finally `//` collapses
to `/`. -/
def pageIdOfRel (rel : String) : String :=
  let pid :=
    if basename rel = "index.html" then
      let p := "/" ++ dirname rel
      if p = "/." then "/" else p
    else "/" ++ splitextRoot rel
  collapseSlashes pid

/-- python: `s.split('/')` (all components, empties kept). -/
def splitOnSlash : List Char → List (List Char)
  | [] => [[]]
  | c :: rest =>
    if c = '/' then [] :: splitOnSlash rest
    else
      match splitOnSlash rest with
      | h :: t => (c :: h) :: t
      | [] => [[c]]

/-- The component list of `os.path.abspath(p)` for an already absolute `p`:
`normpath` drops empty and `.` components and resolves `..` against the
accumulated prefix (at the root, `..` is dropped). -/
def normAbsComponents (p : String) : List String :=
  ((splitOnSlash p.data).map fun l => (⟨l⟩ : String)).foldl
    (fun acc c =>
      if c = "" ∨ c = "." then acc
      else if c = ".." then acc.dropLast
      else acc ++ [c])
    []

/-- Length of the longest common prefix of two component lists
(python: `len(os.path.commonprefix([a, b]))` on lists). -/
def commonPrefixLen : List String → List String → Nat
  | a :: as, b :: bs => if a = b then 1 + commonPrefixLen as bs else 0
  | _, _ => 0

/-- python: `os.path.relpath(path, start)` for POSIX paths, with `path` and
`start` already absolute: normalize both, strip the common component prefix,
prepend one `..` per remaining `start` component. -/
def relpath (path start : String) : String :=
  let pl := normAbsComponents path
  let sl := normAbsComponents start
  let i := commonPrefixLen pl sl
  let rel := List.replicate (sl.length - i) ".." ++ pl.drop i
  if rel = [] then "." else String.intercalate "/" rel

/-- python: `', '.join(l)`. -/
def joinComma (l : List String) : String := String.intercalate ", " l

/-- The filesystem oracle: `os.path.isfile` and `os.path.isdir` on absolute
path strings. -/
structure FS where
  isfile : String → Bool
  isdir : String → Bool

/-- One entry of `SEOAudit.files_to_scan`: absolute path, path relative to
the root, and derived page id. -/
structure FileInfo where
  path : String
  rel_path : String
  id : String
deriving DecidableEq, Repr

/-- One entry of `SEOAudit.issues`. -/
structure Issue where
  type : String
  message : String
  file : String
  deduct : Int
deriving DecidableEq, Repr

/-- The mutable audit state: the issue ledger and score of the `SEOAudit`
object, plus the link maps.  The `defaultdict(list)` maps `internal_links`
and `external_links` are represented as append-only association lists of
(key, appended value) pairs: the sources list of a key `k` is the ordered
list of second components of pairs whose first component is `k`, and the key
set is the set of first components. -/
structure AuditState where
  issues : List Issue
  score : Int
  internal_links : List (String × String)
  external_links : List (String × String)
deriving DecidableEq, Repr

/-- `SEOAudit.add_issue` (audit.py lines 39–46): append the issue and lower
the score by the deduction, floored at zero. -/
def add_issue (s : AuditState) (t m f : String) (d : Int) : AuditState :=
  { s with issues := s.issues ++ [⟨t, m, f, d⟩], score := max 0 (s.score - d) }

/-- The state of a fresh `SEOAudit` object: empty ledger, score 100, empty
link maps. -/
def initState : AuditState := ⟨[], 100, [], []⟩

/-- Folding `add_issue` over a list of issues to record. -/
def runIssues (items : List Issue) (s : AuditState) : AuditState :=
  items.foldl (fun s i => add_issue s i.type i.message i.file i.deduct) s

/-- `SEOAudit.resolve_local_path` (audit.py lines 114–156).  Strip fragment
and query; an empty remainder resolves to nothing.  A href starting with `/`
resolves against the project root with leading slashes stripped, any other
href resolves as given against the directory of the referencing page.  Then,
first match wins: the exact file, then the file with `.html` appended, then,
if the target is a directory, its `index.html`. -/
def resolve_local_path (fs : FS) (rootDir link_href current_file_path : String) :
    Option String :=
  let href := stripFragQuery link_href
  if href = "" then none
  else
    let current_dir := dirname current_file_path
    let rp := if strStarts "/" href then (rootDir, lstripSlashes href)
              else (current_dir, href)
    let base_target := pjoin rp.1 rp.2
    if fs.isfile base_target then some base_target
    else if fs.isfile (base_target ++ ".html") then some (base_target ++ ".html")
    else if fs.isdir base_target then
      if fs.isfile (pjoin base_target "index.html") then
        some (pjoin base_target "index.html")
      else none
    else none

/-- `SEOAudit.check_internal_link` (audit.py lines 216–239): style warnings
for a relative href and for a trailing `.html`; then resolve, and on success
append the edge (target page id, source page id) to `internal_links`, on
failure record the dead-internal-link ERROR with deduction 10. -/
def check_internal_link (fs : FS) (rootDir href : String) (fi : FileInfo)
    (s : AuditState) : AuditState :=
  let s := if ¬ strStarts "/" href then
      add_issue s "WARN" ("Relative path used: " ++ href) fi.rel_path 2
    else s
  let s := if strEnds ".html" href then
      add_issue s "WARN" ("Link includes .html suffix: " ++ href) fi.rel_path 2
    else s
  match resolve_local_path fs rootDir href fi.path with
  | some target_file =>
    let rel_target := relpath target_file rootDir
    { s with internal_links := s.internal_links ++ [(pageIdOfRel rel_target, fi.id)] }
  | none =>
    add_issue s "ERROR" ("Dead Internal Link: " ++ href) fi.rel_path 10

/-- One parsed `<a href=...>` element: its href and its (possibly empty)
list of `rel` tokens, as BeautifulSoup returns them. -/
structure Anchor where
  href : String
  rel : List String
deriving DecidableEq, Repr

/-- `SEOAudit.ignore_urls_start` (audit.py line 25) as a prefix test:
`any(href.startswith(p) for p in ignore_urls_start)`. -/
def ignoreHref (h : String) : Bool :=
  strStarts "/go/" h || strStarts "cdn-cgi" h || strStarts "javascript:" h ||
  strStarts "mailto:" h || strStarts "#" h || strStarts "tel:" h

/-- The test `self.base_url and href.startswith(self.base_url)`
(audit.py line 195): an unset or empty base URL is falsy. -/
def baseMatches : Option String → String → Bool
  | none, _ => false
  | some b, h => b ≠ "" && strStarts b h

/-- python: the `_splitparams` step of `urlparse`, applied to the raw path:
when the path contains a `;`, the semicolon-parameters are cut away — at the
first `;` at or after the last `/` when the path has one (so only the last
segment is affected; no such `;` leaves the path unchanged), at the first
`;` otherwise.  The part before the cut is the `.path` component. -/
def stripParams (l : List Char) : List Char :=
  if l.contains ';' then
    if l.contains '/' then
      let segRev := l.reverse.takeWhile (fun c => c ≠ '/')
      let seg := segRev.reverse
      if seg.contains ';' then
        l.take (l.length - segRev.length) ++ seg.takeWhile (fun c => c ≠ ';')
      else l
    else l.takeWhile (fun c => c ≠ ';')
  else l

/-- python: `urlparse(href).path` for `http://` / `https://` URLs (schemes
that use semicolon-parameters): drop the scheme, then the authority (up to
the first `/`, `?` or `#`); the raw path is what remains before any `?` or
`#`, and the `.path` component is that with the semicolon-parameters of its
last segment stripped (`_splitparams`). -/
def urlPath (href : String) : String :=
  let l := href.data
  let afterScheme :=
    if strStarts "http://" href then l.drop 7
    else if strStarts "https://" href then l.drop 8
    else l
  let rest := afterScheme.dropWhile (fun c => c ≠ '/' ∧ c ≠ '?' ∧ c ≠ '#')
  ⟨stripParams (rest.takeWhile (fun c => c ≠ '?' ∧ c ≠ '#'))⟩

/-- The rel tokens of `['nofollow', 'noopener', 'noreferrer']` absent from
an anchor (audit.py lines 184 and 209). -/
def missingRel (rel : List String) : List String :=
  (["nofollow", "noopener", "noreferrer"]).filter (fun r => ¬ rel.contains r)

/-- The body of the `for a in soup.find_all('a', href=True)` loop of
`SEOAudit.analyze_links` (audit.py lines 177–214) for a single anchor:
the soft-route rel check for `/go/` hrefs, then the ignore list, then the
absolute-URL classification against the base URL (disguised-internal warning
feeding the URL path back into internal resolution, or external recording
plus missing-rel warning), and otherwise internal-link checking. -/
def processAnchor (fs : FS) (rootDir : String) (base_url : Option String)
    (fi : FileInfo) (s : AuditState) (a : Anchor) : AuditState :=
  let s := if strStarts "/go/" a.href then
      if missingRel a.rel ≠ [] then
        add_issue s "WARN"
          ("Soft Route link missing rel attributes (" ++
            joinComma (missingRel a.rel) ++ "): " ++ a.href) fi.rel_path 2
      else s
    else s
  if ignoreHref a.href then s
  else if strStarts "http://" a.href || strStarts "https://" a.href then
    if baseMatches base_url a.href then
      let s := add_issue s "WARN"
        ("Internal link using absolute URL: " ++ a.href) fi.rel_path 2
      let path := urlPath a.href
      let path := if path = "" then "/" else path
      check_internal_link fs rootDir path fi s
    else
      let s := { s with external_links := s.external_links ++ [(a.href, fi.rel_path)] }
      if missingRel a.rel ≠ [] then
        add_issue s "WARN"
          ("External link missing rel attributes (" ++
            joinComma (missingRel a.rel) ++ "): " ++ a.href) fi.rel_path 2
      else s
  else
    check_internal_link fs rootDir a.href fi s

/-- The key set of the `internal_links` map (python:
`set(self.internal_links.keys())` viewed as a deduplicated list). -/
def linkKeys (links : List (String × String)) : List String :=
  (links.map Prod.fst).dedup

/-- The orphan set `all_pages - linked_pages` of `SEOAudit.analyze_orphans`
(audit.py lines 281–284), as a deduplicated list of page ids with no
inbound edge. -/
def orphanIds (files : List FileInfo) (links : List (String × String)) :
    List String :=
  ((files.map FileInfo.id).dedup).filter
    (fun i => ¬ (links.map Prod.fst).contains i)

/-- The WARN issue recorded for an orphan page id. -/
def orphanWarn (o : String) : Issue :=
  ⟨"WARN", "Orphan page (no incoming links): " ++ o, "Structure", 5⟩

/-- `SEOAudit.analyze_orphans` (audit.py lines 279–289): one WARN with
deduction 5 per orphan, skipping the ids `/` and `/index`. -/
def analyze_orphans (files : List FileInfo) (links : List (String × String))
    (s : AuditState) : AuditState :=
  (orphanIds files links).foldl
    (fun s o => if o = "/" ∨ o = "/index" then s
      else add_issue s "WARN" ("Orphan page (no incoming links): " ++ o) "Structure" 5)
    s

/-- The network oracle for the external-link prober: a HEAD request and a
GET request each yield either a final status code (redirects already
followed) or a transport-level exception message. -/
structure Net where
  head : String → Except String Nat
  get : String → Except String Nat

/-- The allowlist short-circuit of `check_url` (audit.py line 254):
`'help.x.com' in url or 'twitter.com' in url or 'x.com' in url`. -/
def allowlisted (url : String) : Bool :=
  containsSub "help.x.com" url || containsSub "twitter.com" url ||
  containsSub "x.com" url

/-- The outcome `check_url` pairs with the URL: `.inr n` is a status code
(success is the literal 200), `.inl e` is `str(e)` of a caught exception. -/
def statusText : Sum String Nat → String
  | .inl e => e
  | .inr n => toString n

/-- The worker `check_url` of `SEOAudit.check_external_links` (audit.py
lines 244–267): allowlisted URLs return 200 without probing; otherwise a
HEAD request, retried as a GET on a 405 or 403 status; a status at least 400
is returned as such; any exception is returned as its message; everything
else returns 200. -/
def check_url (net : Net) (url : String) : Sum String Nat :=
  if allowlisted url then .inr 200
  else
    match net.head url with
    | .error e => .inl e
    | .ok s1 =>
      if s1 = 405 ∨ s1 = 403 then
        match net.get url with
        | .error e => .inl e
        | .ok s2 => if s2 ≥ 400 then .inr s2 else .inr 200
      else if s1 ≥ 400 then .inr s1 else .inr 200

/-- The sources fragment of a broken-external-link message (audit.py lines
274–276): the first three referencing pages, `...` appended when more
exist. -/
def sourcesText (srcs : List String) : String :=
  joinComma (srcs.take 3) ++ (if srcs.length > 3 then "..." else "")

/-- The ERROR issue recorded for a broken external URL. -/
def brokenIssue (url : String) (srcs : List String) (r : Sum String Nat) : Issue :=
  ⟨"ERROR", "Broken External Link (" ++ statusText r ++ "): " ++ url ++
    " (found in " ++ sourcesText srcs ++ ")", "External", 5⟩

/-- `SEOAudit.check_external_links` (audit.py lines 241–277) over the items
of the `external_links` map (each distinct URL with its ordered source
list): probe each URL and record one ERROR with deduction 5 when the
outcome is not the success value 200.  The thread pool completes every
submitted probe; the fold fixes one completion order, which the recorded
per-URL facts do not depend on. -/
def check_external_links (net : Net) (ext : List (String × List String))
    (s : AuditState) : AuditState :=
  ext.foldl
    (fun s it =>
      if check_url net it.1 = .inr 200 then s
      else add_issue s "ERROR"
          ("Broken External Link (" ++ statusText (check_url net it.1) ++ "): "
            ++ it.1 ++ " (found in " ++ sourcesText it.2 ++ ")") "External" 5)
    s

/-- The per-file body of `SEOAudit.scan_files` (audit.py lines 86–112) for
one walked relative path: keep `.html` files whose filename contains none of
the ignore substrings (`google`, `404.html`), and build the record with its
derived page id. -/
def scanRecord (rootDir rel : String) : Option FileInfo :=
  if ¬ strEnds ".html" (basename rel) then none
  else if containsSub "google" (basename rel) || containsSub "404.html" (basename rel) then none
  else some ⟨pjoin rootDir rel, rel, pageIdOfRel rel⟩

/-- `SEOAudit.scan_files` over the relative paths produced by the directory
walk (the walk itself is I/O; its output, after directory pruning, is the
input list). -/
def scan_files (rootDir : String) (walkRels : List String) : List FileInfo :=
  walkRels.filterMap (scanRecord rootDir)

/-- The candidate loop body of `resolve_local_path` (audit.py lines
140–156), as a function of the already-joined base target. -/
def tiersAt (fs : FS) (base : String) : Option String :=
  if fs.isfile base then some base
  else if fs.isfile (base ++ ".html") then some (base ++ ".html")
  else if fs.isdir base then
    if fs.isfile (pjoin base "index.html") then some (pjoin base "index.html")
    else none
  else none

/-- The base target fixed by the resolution root: project root for a
root-relative href (leading slashes stripped), the referencing page
directory otherwise. -/
def resolutionBase (rootDir page h : String) : String :=
  if strStarts "/" h then pjoin rootDir (lstripSlashes h)
  else pjoin (dirname page) h

/-- The filesystem of the precedence scenario: under root `/r`, the name
`name` exists simultaneously as a bare file, as `name.html`, and as a
directory with an `index.html`. -/
def fsTierAll : FS :=
  ⟨fun p => p == "/r/name" || p == "/r/name.html" || p == "/r/name/index.html"
      || p == "/r/page.html",
   fun p => p == "/r" || p == "/r/name"⟩

/-- As `fsTierAll` but without the bare file `name`. -/
def fsTierHtml : FS :=
  ⟨fun p => p == "/r/name.html" || p == "/r/name/index.html" || p == "/r/page.html",
   fun p => p == "/r" || p == "/r/name"⟩

/-- As `fsTierAll` but with only the directory index for `name`. -/
def fsTierIndex : FS :=
  ⟨fun p => p == "/r/name/index.html" || p == "/r/page.html",
   fun p => p == "/r" || p == "/r/name"⟩

/-- A filesystem in which `name` does not exist in any spelling. -/
def fsTierNone : FS :=
  ⟨fun p => p == "/r/page.html", fun p => p == "/r"⟩

/-- The filesystem of the root-selection scenario: under root `/r`, the
pages `blog/post.html`, `deep/nested/page.html` and `deep/nested/post.html`
exist. -/
def fsRootSel : FS :=
  ⟨fun p => p == "/r/blog/post.html" || p == "/r/deep/nested/page.html"
      || p == "/r/deep/nested/post.html",
   fun p => p == "/r" || p == "/r/blog" || p == "/r/deep" || p == "/r/deep/nested"⟩

/-- The dead-internal-link ERROR issue (audit.py line 239). -/
def deadLinkIssue (href rel_path : String) : Issue :=
  ⟨"ERROR", "Dead Internal Link: " ++ href, rel_path, 10⟩

/-- The filesystem of the dead-link scenario: only `a.html` exists under the
root; nothing named `missing` exists in any spelling. -/
def fsDead : FS := ⟨fun p => p == "/r/a.html", fun p => p == "/r"⟩

/-- The source record for `a.html` in the dead-link scenario. -/
def fiA : FileInfo := ⟨"/r/a.html", "a.html", "/a"⟩

/-- The WARN issue for an internal link written as an absolute URL
(audit.py line 196). -/
def absUrlWarn (href rel_path : String) : Issue :=
  ⟨"WARN", "Internal link using absolute URL: " ++ href, rel_path, 2⟩

/-- The filesystem of the disguised-internal-link scenario: `blog/post.html`
exists under root `/r`, alongside the referencing page `a.html`. -/
def fsDisg : FS :=
  ⟨fun p => p == "/r/blog/post.html" || p == "/r/a.html",
   fun p => p == "/r" || p == "/r/blog"⟩

/-- The stored base URL of `SEOAudit.auto_configure` (audit.py line 66):
the detected canonical or `og:url` value with trailing slashes stripped
(`self.base_url.rstrip('/')`). -/
def autoBaseStored (detected : String) : String := rstripSlashes detected

/-- The guard of the orphan loop (audit.py line 287): true when the id is
neither home spelling `/` nor `/index`. -/
def notHome (o : String) : Bool := ¬(o = "/" ∨ o = "/index")

/-- The discovered pages of the orphan scenario: home, `a.html`, `b.html`;
only `/b` has an inbound edge. -/
def demoFiles : List FileInfo :=
  [⟨"/r/index.html", "index.html", "/"⟩, ⟨"/r/a.html", "a.html", "/a"⟩,
   ⟨"/r/b.html", "b.html", "/b"⟩]

/-- The link edges of the orphan scenario. -/
def demoLinks : List (String × String) := [("/b", "/")]

/-- The non-success criterion exactly as the claim words it: the existence
check (HEAD) yields a status of at least 400 other than the
fallback-triggering method-not-allowed/forbidden statuses, or the fallback
full fetch (GET, taken once after a 405 or 403 HEAD) yields a status of at
least 400, or a transport-level exception occurs. -/
def probeNonSuccess (net : Net) (url : String) : Bool :=
  match net.head url with
  | .error _ => true
  | .ok s1 =>
    if s1 = 405 ∨ s1 = 403 then
      match net.get url with
      | .error _ => true
      | .ok s2 => s2 ≥ 400
    else decide (s1 ≥ 400 ∧ ¬(s1 = 405 ∨ s1 = 403))

/-- A network in which every HEAD is rejected with 403 and every GET
succeeds with 200. -/
def net403 : Net := ⟨fun _ => .ok 403, fun _ => .ok 200⟩

/-- A network in which every request fails with a 500 status. -/
def net500 : Net := ⟨fun _ => .ok 500, fun _ => .ok 500⟩

/-- No two adjacent slashes occur in the character list. -/
def noDS : List Char → Bool
  | [] => true
  | [_] => true
  | a :: b :: rest => if a = '/' ∧ b = '/' then false else noDS (b :: rest)

/-- A well-formed directory part: a relative, normalized path as produced by
the directory walk — no leading or trailing slash, no empty component, and
not the current-directory marker. -/
def GoodDirStr (d : String) : Prop :=
  d.data.head? ≠ some '/' ∧ d.data.getLast? ≠ some '/'
    ∧ noDS d.data = true ∧ d ≠ "."

/-- A well-formed clean-URL stem: relative and normalized, its final
component is not `index` and contains a character other than a dot (the
degenerate all-dot basenames such as `.html` are the only ones the
`os.path.splitext` convention treats differently). -/
def GoodStem (s : String) : Prop :=
  s.data.head? ≠ some '/' ∧ noDS s.data = true
    ∧ basename s ≠ "index"
    ∧ (s.data.reverse.takeWhile (fun c => c ≠ '/')).any (fun c => c ≠ '.') = true

instance decGoodDirStr (d : String) : Decidable (GoodDirStr d) :=
  inferInstanceAs (Decidable (_ ∧ _ ∧ _ ∧ _))

instance decGoodStem (s : String) : Decidable (GoodStem s) :=
  inferInstanceAs (Decidable (_ ∧ _ ∧ _ ∧ _))

/-- The relative paths a directory walk can discover, in the shapes the
page-id derivation distinguishes: the root index file, a directory index
file under a well-formed directory, or an ordinary `.html` file with a
well-formed stem. -/
def WfRel (r : String) : Prop :=
  r = "index.html"
    ∨ (∃ d, d ≠ "" ∧ GoodDirStr d ∧ r = d ++ "/index.html")
    ∨ (∃ s, GoodStem s ∧ r = s ++ ".html")

/-- Two relative paths of the same clean-URL family: one is `q.html` and
the other `q/index.html` for the same stem q. -/
def CleanUrlPair (r1 r2 : String) : Prop :=
  ∃ q : String, (r1 = q ++ ".html" ∧ r2 = q ++ "/index.html")
    ∨ (r2 = q ++ ".html" ∧ r1 = q ++ "/index.html")

/-! ### Theorems -/

/-! ## Ledger and score lemmas -/

theorem runIssues_append (a b : List Issue) (s : AuditState) :
    runIssues (a ++ b) s = runIssues b (runIssues a s) := by
  simp [runIssues, List.foldl_append]

theorem add_issue_score (s : AuditState) (t m f : String) (d : Int) :
    (add_issue s t m f d).score = max 0 (s.score - d) := rfl

theorem runIssues_score (items : List Issue) (s : AuditState)
    (hs : 0 ≤ s.score) (hd : ∀ i ∈ items, 0 ≤ i.deduct) :
    (runIssues items s).score = max 0 (s.score - (items.map Issue.deduct).sum) := by
  induction items generalizing s with
  | nil => simpa [runIssues] using (max_eq_right hs).symm
  | cons i rest ih =>
    have hi : 0 ≤ i.deduct := hd i (by simp)
    have hrest : ∀ j ∈ rest, 0 ≤ j.deduct := fun j hj => hd j (by simp [hj])
    have step : runIssues (i :: rest) s =
        runIssues rest (add_issue s i.type i.message i.file i.deduct) := by
      simp [runIssues]
    rw [step, ih _ (le_max_left 0 _) hrest, add_issue_score]
    rcases le_total 0 (s.score - i.deduct) with h | h
    · rw [max_eq_right h]
      simp only [List.map_cons, List.sum_cons]
      ring_nf
    · rw [max_eq_left h]
      have hsum : 0 ≤ (rest.map Issue.deduct).sum :=
        List.sum_nonneg (by
          intro x hx
          rcases List.mem_map.mp hx with ⟨j, hj, rfl⟩
          exact hrest j hj)
      simp only [List.map_cons, List.sum_cons]
      omega

/-- C1 — Score invariant: running any sequence of recorded issues with
non-negative deductions from a fresh audit state, the score after every
prefix equals `max 0 (100 − Σ deductions so far)`; recording one more issue
never increases the score; and the score always lies between 0 and 100. -/
theorem c1_score_invariant (items : List Issue)
    (hd : ∀ i ∈ items, 0 ≤ i.deduct) :
    (runIssues items initState).score
        = max 0 (100 - (items.map Issue.deduct).sum)
      ∧ (∀ pre i rest, items = pre ++ i :: rest →
          (runIssues (pre ++ [i]) initState).score
            ≤ (runIssues pre initState).score)
      ∧ (∀ pre suf, items = pre ++ suf →
          0 ≤ (runIssues pre initState).score
            ∧ (runIssues pre initState).score ≤ 100) := by
  have hinit : (initState).score = 100 := rfl
  have hpre : ∀ pre suf, items = pre ++ suf →
      (runIssues pre initState).score
        = max 0 (100 - (pre.map Issue.deduct).sum) := by
    intro pre suf hsplit
    have : ∀ i ∈ pre, 0 ≤ i.deduct := by
      intro i hi
      exact hd i (by rw [hsplit]; exact List.mem_append_left _ hi)
    rw [runIssues_score pre initState (by rw [hinit]; norm_num) this, hinit]
  refine ⟨?_, ?_, ?_⟩
  · rw [runIssues_score items initState (by rw [hinit]; norm_num) hd, hinit]
  · intro pre i rest hsplit
    have hi : 0 ≤ i.deduct := hd i (by rw [hsplit]; simp)
    have h1 := hpre pre (i :: rest) hsplit
    have h2 : (runIssues (pre ++ [i]) initState).score
        = max 0 ((runIssues pre initState).score - i.deduct) := by
      rw [runIssues_append]
      simp [runIssues, add_issue_score]
    rw [h2, h1]
    omega
  · intro pre suf hsplit
    have h1 := hpre pre suf hsplit
    have hsum : 0 ≤ (pre.map Issue.deduct).sum :=
      List.sum_nonneg (by
        intro x hx
        rcases List.mem_map.mp hx with ⟨j, hj, rfl⟩
        exact hd j (by rw [hsplit]; exact List.mem_append_left _ hj))
    rw [h1]
    omega

/-- Witness for C1 at a concrete run: two issues of deduction 60 each floor
the score at 0 and keep every prefix score inside the bounds. -/
theorem c1_score_invariant_witness :
    (∀ i ∈ [(⟨"ERROR", "m", "f", 60⟩ : Issue), ⟨"ERROR", "n", "f", 60⟩], 0 ≤ i.deduct)
      ∧ ((runIssues [(⟨"ERROR", "m", "f", 60⟩ : Issue), ⟨"ERROR", "n", "f", 60⟩] initState).score
          = max 0 (100 - ([(⟨"ERROR", "m", "f", 60⟩ : Issue), ⟨"ERROR", "n", "f", 60⟩].map Issue.deduct).sum)
        ∧ (∀ pre i rest,
            [(⟨"ERROR", "m", "f", 60⟩ : Issue), ⟨"ERROR", "n", "f", 60⟩] = pre ++ i :: rest →
            (runIssues (pre ++ [i]) initState).score ≤ (runIssues pre initState).score)
        ∧ (∀ pre suf,
            [(⟨"ERROR", "m", "f", 60⟩ : Issue), ⟨"ERROR", "n", "f", 60⟩] = pre ++ suf →
            0 ≤ (runIssues pre initState).score ∧ (runIssues pre initState).score ≤ 100)) :=
  ⟨by decide, c1_score_invariant _ (by decide)⟩

/-! ## Resolver lemmas (C3, C4) -/

theorem resolve_eq_tiers (fs : FS) (rootDir href page : String) :
    resolve_local_path fs rootDir href page =
      (if stripFragQuery href = "" then none
       else tiersAt fs (resolutionBase rootDir page (stripFragQuery href))) := by
  by_cases hne : stripFragQuery href = ""
  · simp [resolve_local_path, hne]
  · by_cases hs : strStarts "/" (stripFragQuery href)
    · simp [resolve_local_path, hne, tiersAt, resolutionBase, hs]
    · simp [resolve_local_path, hne, tiersAt, resolutionBase, hs]

/-- A successful resolution always returns a path at which the filesystem
oracle reports a file. -/
theorem resolve_isfile (fs : FS) (rootDir href page t : String)
    (h : resolve_local_path fs rootDir href page = some t) :
    fs.isfile t = true := by
  rw [resolve_eq_tiers] at h
  by_cases hne : stripFragQuery href = ""
  · simp [hne] at h
  · rw [if_neg hne] at h
    unfold tiersAt at h
    set base := resolutionBase rootDir page (stripFragQuery href) with hb
    by_cases h1 : fs.isfile base
    · simp [h1] at h; simpa [← h] using h1
    · by_cases h2 : fs.isfile (base ++ ".html")
      · simp [h1, h2] at h; simpa [← h] using h2
      · by_cases h3 : fs.isdir base
        · by_cases h4 : fs.isfile (pjoin base "index.html")
          · simp [h1, h2, h3, h4] at h; simpa [← h] using h4
          · simp [h1, h2, h3, h4] at h
        · simp [h1, h2, h3] at h

/-- C3 — Resolver candidate precedence: once the resolution root and
remainder fix the base target, the exact file wins, then the `.html`
variant, then the directory index, and the result is the not-found value
when no tier matches; each precedence tier is also exercised in isolation
on concrete filesystems. -/
theorem c3_resolver_precedence (fs : FS) (rootDir href page : String)
    (hne : stripFragQuery href ≠ "") :
    ((fs.isfile (resolutionBase rootDir page (stripFragQuery href)) = true →
        resolve_local_path fs rootDir href page
          = some (resolutionBase rootDir page (stripFragQuery href)))
      ∧ (fs.isfile (resolutionBase rootDir page (stripFragQuery href)) = false →
          fs.isfile (resolutionBase rootDir page (stripFragQuery href) ++ ".html") = true →
          resolve_local_path fs rootDir href page
            = some (resolutionBase rootDir page (stripFragQuery href) ++ ".html"))
      ∧ (fs.isfile (resolutionBase rootDir page (stripFragQuery href)) = false →
          fs.isfile (resolutionBase rootDir page (stripFragQuery href) ++ ".html") = false →
          fs.isdir (resolutionBase rootDir page (stripFragQuery href)) = true →
          fs.isfile (pjoin (resolutionBase rootDir page (stripFragQuery href)) "index.html") = true →
          resolve_local_path fs rootDir href page
            = some (pjoin (resolutionBase rootDir page (stripFragQuery href)) "index.html"))
      ∧ (fs.isfile (resolutionBase rootDir page (stripFragQuery href)) = false →
          fs.isfile (resolutionBase rootDir page (stripFragQuery href) ++ ".html") = false →
          ¬ (fs.isdir (resolutionBase rootDir page (stripFragQuery href)) = true
              ∧ fs.isfile (pjoin (resolutionBase rootDir page (stripFragQuery href)) "index.html") = true) →
          resolve_local_path fs rootDir href page = none))
    ∧ resolve_local_path fsTierAll "/r" "/name" "/r/page.html" = some "/r/name"
    ∧ resolve_local_path fsTierHtml "/r" "/name" "/r/page.html" = some "/r/name.html"
    ∧ resolve_local_path fsTierIndex "/r" "/name" "/r/page.html" = some "/r/name/index.html"
    ∧ resolve_local_path fsTierNone "/r" "/name" "/r/page.html" = none := by
  refine ⟨⟨?_, ?_, ?_, ?_⟩, by decide, by decide, by decide, by decide⟩
  · intro h1
    rw [resolve_eq_tiers, if_neg hne]
    simp [tiersAt, h1]
  · intro h1 h2
    rw [resolve_eq_tiers, if_neg hne]
    simp [tiersAt, h1, h2]
  · intro h1 h2 h3 h4
    rw [resolve_eq_tiers, if_neg hne]
    simp [tiersAt, h1, h2, h3, h4]
  · intro h1 h2 h34
    rw [resolve_eq_tiers, if_neg hne]
    by_cases h3 : fs.isdir (resolutionBase rootDir page (stripFragQuery href))
    · have h4 : fs.isfile (pjoin (resolutionBase rootDir page (stripFragQuery href)) "index.html") = false := by
        rcases Bool.eq_false_or_eq_true
          (fs.isfile (pjoin (resolutionBase rootDir page (stripFragQuery href)) "index.html")) with h | h
        · exact absurd ⟨h3, h⟩ h34
        · exact h
      simp [tiersAt, h1, h2, h3, h4]
    · simp [tiersAt, h1, h2, h3]

/-- Witness for C3 at a concrete input: the first tier fires on
`fsTierAll`. -/
theorem c3_resolver_precedence_witness :
    stripFragQuery "/name" ≠ ""
      ∧ (fsTierAll.isfile (resolutionBase "/r" "/r/page.html" (stripFragQuery "/name")) = true →
          resolve_local_path fsTierAll "/r" "/name" "/r/page.html"
            = some (resolutionBase "/r" "/r/page.html" (stripFragQuery "/name"))) :=
  ⟨by decide, (c3_resolver_precedence fsTierAll "/r" "/name" "/r/page.html" (by decide)).1.1⟩

/-- C4 — Resolution-root selection: after fragment/query stripping, a href
starting with `/` is resolved (through the candidate tiers) against the
project root with its leading slashes stripped, and any other href is
resolved as given against the directory containing the referencing page;
concretely, `/blog/post` from `deep/nested/page.html` resolves against the
project root while `post` from the same page resolves against
`deep/nested/`. -/
theorem c4_resolution_root (fs : FS) (rootDir href page : String)
    (hne : stripFragQuery href ≠ "") :
    ((strStarts "/" (stripFragQuery href) = true →
        resolve_local_path fs rootDir href page
          = tiersAt fs (pjoin rootDir (lstripSlashes (stripFragQuery href))))
      ∧ (strStarts "/" (stripFragQuery href) = false →
          resolve_local_path fs rootDir href page
            = tiersAt fs (pjoin (dirname page) (stripFragQuery href))))
    ∧ resolve_local_path fsRootSel "/r" "/blog/post" "/r/deep/nested/page.html"
        = some "/r/blog/post.html"
    ∧ resolve_local_path fsRootSel "/r" "post" "/r/deep/nested/page.html"
        = some "/r/deep/nested/post.html" := by
  refine ⟨⟨?_, ?_⟩, by decide, by decide⟩
  · intro hs
    rw [resolve_eq_tiers, if_neg hne]
    simp [resolutionBase, hs]
  · intro hs
    rw [resolve_eq_tiers, if_neg hne]
    simp [resolutionBase, hs]

/-- Witness for C4 at a concrete input: the root-relative href `/blog/post`
referenced from `deep/nested/page.html` is resolved against the project
root. -/
theorem c4_resolution_root_witness :
    stripFragQuery "/blog/post" ≠ ""
      ∧ (strStarts "/" (stripFragQuery "/blog/post") = true →
          resolve_local_path fsRootSel "/r" "/blog/post" "/r/deep/nested/page.html"
            = tiersAt fsRootSel (pjoin "/r" (lstripSlashes (stripFragQuery "/blog/post")))) :=
  ⟨by decide,
    (c4_resolution_root fsRootSel "/r" "/blog/post" "/r/deep/nested/page.html"
      (by decide)).1.1⟩

/-! ## Dead-link handling (C5) -/

/-- `check_internal_link` never touches the external-link record. -/
theorem check_internal_link_external (fs : FS) (rootDir href : String)
    (fi : FileInfo) (s : AuditState) :
    (check_internal_link fs rootDir href fi s).external_links
      = s.external_links := by
  rcases hres : resolve_local_path fs rootDir href fi.path with _ | t <;>
    by_cases ha : strStarts "/" href <;> by_cases hb : strEnds ".html" href <;>
      simp [check_internal_link, hres, ha, hb, add_issue]

/-- C5 — Dead-link handling: when resolution fails, `check_internal_link`
records exactly one ERROR (deduction 10, naming the href) and leaves the
link graph untouched; when resolution succeeds it appends the edge
(target page id, source page id) to `internal_links`, records no ERROR, and
the resolved target is a path the filesystem reports as an existing file —
so dead links never enter `LinkEdge` and every key added to it is the id of
an existing file. -/
theorem c5_dead_link_handling (fs : FS) (rootDir href : String)
    (fi : FileInfo) (s : AuditState) :
    (resolve_local_path fs rootDir href fi.path = none →
      (check_internal_link fs rootDir href fi s).internal_links = s.internal_links
      ∧ (check_internal_link fs rootDir href fi s).external_links = s.external_links
      ∧ (check_internal_link fs rootDir href fi s).issues.filter
            (fun i => i.type == "ERROR")
          = s.issues.filter (fun i => i.type == "ERROR")
            ++ [deadLinkIssue href fi.rel_path])
    ∧ (∀ t, resolve_local_path fs rootDir href fi.path = some t →
        (check_internal_link fs rootDir href fi s).internal_links
          = s.internal_links ++ [(pageIdOfRel (relpath t rootDir), fi.id)]
        ∧ (check_internal_link fs rootDir href fi s).external_links = s.external_links
        ∧ (check_internal_link fs rootDir href fi s).issues.filter
              (fun i => i.type == "ERROR")
            = s.issues.filter (fun i => i.type == "ERROR")
        ∧ fs.isfile t = true) := by
  constructor
  · intro h
    by_cases ha : strStarts "/" href <;> by_cases hb : strEnds ".html" href <;>
      simp [check_internal_link, h, ha, hb, add_issue, deadLinkIssue,
        List.filter_append]
  · intro t h
    refine ⟨?_, ?_, ?_, resolve_isfile fs rootDir href fi.path t h⟩ <;>
      by_cases ha : strStarts "/" href <;> by_cases hb : strEnds ".html" href <;>
        simp [check_internal_link, h, ha, hb, add_issue, List.filter_append]

/-- Witness for C5 at the spec scenario: `<a href="/missing">` on `a.html`
with no file or directory named `missing` yields exactly one ERROR of
deduction 10 and no `LinkEdge` entry. -/
theorem c5_dead_link_handling_witness :
    resolve_local_path fsDead "/r" "/missing" fiA.path = none
      ∧ ((check_internal_link fsDead "/r" "/missing" fiA initState).internal_links
            = initState.internal_links
        ∧ (check_internal_link fsDead "/r" "/missing" fiA initState).external_links
            = initState.external_links
        ∧ (check_internal_link fsDead "/r" "/missing" fiA initState).issues.filter
              (fun i => i.type == "ERROR")
            = initState.issues.filter (fun i => i.type == "ERROR")
              ++ [deadLinkIssue "/missing" fiA.rel_path]) :=
  ⟨by decide, (c5_dead_link_handling fsDead "/r" "/missing" fiA initState).1 (by decide)⟩

/-! ## Soft-route policy (C7) -/

theorem goHref_ignored (h : String) (hs : strStarts "/go/" h = true) :
    ignoreHref h = true := by
  simp [ignoreHref, hs]

/-- C7 — Soft-route rel policy: for an anchor whose href starts with
`/go/`, the three tokens `nofollow`, `noopener`, `noreferrer` are checked;
exactly one WARN of deduction 2 naming precisely the missing tokens is
recorded when any is absent, nothing when none is; in all cases the anchor
is then excluded from further link analysis: no `internal_links` entry, no
external record, no dead-link ERROR.  Concretely,
`<a href="/go/offer" rel="nofollow">` yields one WARN naming
`noopener, noreferrer`. -/
theorem c7_soft_route (fs : FS) (rootDir : String) (base_url : Option String)
    (fi : FileInfo) (s : AuditState) (a : Anchor)
    (hs : strStarts "/go/" a.href = true) :
    ((missingRel a.rel = [] → processAnchor fs rootDir base_url fi s a = s)
      ∧ (missingRel a.rel ≠ [] →
          processAnchor fs rootDir base_url fi s a
            = add_issue s "WARN"
                ("Soft Route link missing rel attributes ("
                  ++ joinComma (missingRel a.rel) ++ "): " ++ a.href)
                fi.rel_path 2)
      ∧ (processAnchor fs rootDir base_url fi s a).internal_links = s.internal_links
      ∧ (processAnchor fs rootDir base_url fi s a).external_links = s.external_links
      ∧ (processAnchor fs rootDir base_url fi s a).issues.filter
            (fun i => i.type == "ERROR")
          = s.issues.filter (fun i => i.type == "ERROR"))
    ∧ (processAnchor fsDead "/r" none fiA initState ⟨"/go/offer", ["nofollow"]⟩).issues
        = [⟨"WARN",
            "Soft Route link missing rel attributes (noopener, noreferrer): /go/offer",
            "a.html", 2⟩] := by
  have hig := goHref_ignored a.href hs
  by_cases hm : missingRel a.rel = [] <;>
    exact ⟨by simp [processAnchor, hs, hig, hm, add_issue, List.filter_append],
      by decide⟩

/-- Witness for C7 at the spec scenario: `/go/offer` carrying only
`nofollow` records the WARN naming the two missing tokens. -/
theorem c7_soft_route_witness :
    strStarts "/go/" ("/go/offer") = true
      ∧ missingRel ["nofollow"] ≠ []
      ∧ processAnchor fsDead "/r" none fiA initState ⟨"/go/offer", ["nofollow"]⟩
          = add_issue initState "WARN"
              ("Soft Route link missing rel attributes ("
                ++ joinComma (missingRel ["nofollow"]) ++ "): " ++ "/go/offer")
              "a.html" 2 :=
  ⟨by decide, by decide,
    (c7_soft_route fsDead "/r" none fiA initState ⟨"/go/offer", ["nofollow"]⟩
      (by decide)).1.2.1 (by decide)⟩

/-! ## Absolute-URL classification (C6, C10) -/

theorem prefix_head_eq (p q s : String)
    (hp : strStarts p s = true) (hq : strStarts q s = true) :
    p.data = [] ∨ q.data = [] ∨ p.data.head? = q.data.head? := by
  cases hpd : p.data with
  | nil => exact Or.inl rfl
  | cons a as =>
    cases hqd : q.data with
    | nil => exact Or.inr (Or.inl rfl)
    | cons b bs =>
      refine Or.inr (Or.inr ?_)
      unfold strStarts at hp hq
      rw [hpd] at hp
      rw [hqd] at hq
      cases hsd : s.data with
      | nil =>
        rw [hsd] at hp
        simp [List.isPrefixOf] at hp
      | cons c cs =>
        rw [hsd] at hp hq
        simp [List.isPrefixOf] at hp hq
        simp [hp.1, hq.1]

/-- Any prefix of a string that starts with `http://` or `https://` is
empty or begins with the letter h. -/
theorem http_prefix_head (href : String)
    (hh : strStarts "http://" href = true ∨ strStarts "https://" href = true)
    (p : String) (hps : strStarts p href = true) :
    p.data = [] ∨ p.data.head? = some 'h' := by
  rcases hh with h | h
  · rcases prefix_head_eq p "http://" href hps h with h1 | h1 | h1
    · exact Or.inl h1
    · exact absurd h1 (by decide)
    · exact Or.inr (by rw [h1]; decide)
  · rcases prefix_head_eq p "https://" href hps h with h1 | h1 | h1
    · exact Or.inl h1
    · exact absurd h1 (by decide)
    · exact Or.inr (by rw [h1]; decide)

/-- An absolute `http://` or `https://` href matches no entry of the ignore
list (all of whose prefixes begin with another character). -/
theorem http_not_ignored (href : String)
    (hh : strStarts "http://" href = true ∨ strStarts "https://" href = true) :
    ignoreHref href = false ∧ strStarts "/go/" href = false := by
  have key : ∀ p : String, p.data ≠ [] → p.data.head? ≠ some 'h' →
      strStarts p href = false := by
    intro p hne hhd
    rcases Bool.eq_false_or_eq_true (strStarts p href) with h | h
    · rcases http_prefix_head href hh p h with h2 | h2
      · exact absurd h2 hne
      · exact absurd h2 hhd
    · exact h
  have h1 := key "/go/" (by decide) (by decide)
  have h2 := key "cdn-cgi" (by decide) (by decide)
  have h3 := key "javascript:" (by decide) (by decide)
  have h4 := key "mailto:" (by decide) (by decide)
  have h5 := key "#" (by decide) (by decide)
  have h6 := key "tel:" (by decide) (by decide)
  exact ⟨by simp [ignoreHref, h1, h2, h3, h4, h5, h6], h1⟩

/-- C6 — Disguised-internal-link classification: an `http(s)` href that
starts with the configured BaseURL records the absolute-URL WARN (deduction
2), feeds the path component of the URL (`/` when empty) into internal
resolution, and adds nothing to the external-link record.  Concretely, with
BaseURL `https://example.com`, the href `https://example.com/blog/post`
yields exactly that WARN plus one `LinkEdge` entry targeting `/blog/post`
and no external record; and the href `https://example.com/a;b`, whose last
path segment carries semicolon-parameters, is resolved at the
params-stripped path `/a` (one edge to `/a`, no dead-link issue). -/
theorem c6_disguised_internal (fs : FS) (rootDir b href : String)
    (rel : List String) (fi : FileInfo) (s : AuditState)
    (hb : b ≠ "")
    (hh : strStarts "http://" href = true ∨ strStarts "https://" href = true)
    (hpre : strStarts b href = true) :
    (processAnchor fs rootDir (some b) fi s ⟨href, rel⟩
        = check_internal_link fs rootDir
            (if urlPath href = "" then "/" else urlPath href) fi
            (add_issue s "WARN" ("Internal link using absolute URL: " ++ href)
              fi.rel_path 2)
      ∧ (processAnchor fs rootDir (some b) fi s ⟨href, rel⟩).external_links
          = s.external_links)
    ∧ processAnchor fsDisg "/r" (some "https://example.com") fiA initState
        ⟨"https://example.com/blog/post", []⟩
      = ⟨[absUrlWarn "https://example.com/blog/post" "a.html"], 98,
          [("/blog/post", "/a")], []⟩
    ∧ processAnchor fsDisg "/r" (some "https://example.com") fiA initState
        ⟨"https://example.com/a;b", []⟩
      = ⟨[absUrlWarn "https://example.com/a;b" "a.html"], 98,
          [("/a", "/a")], []⟩ := by
  rcases http_not_ignored href hh with ⟨hig, hgo⟩
  have hhb : (strStarts "http://" href || strStarts "https://" href) = true := by
    rcases hh with h | h <;> simp [h]
  have hbm : baseMatches (some b) href = true := by
    simp [baseMatches, hb, hpre]
  refine ⟨⟨?_, ?_⟩, by decide, by decide⟩
  · simp [processAnchor, hgo, hig, hhb, hbm]
  · simp [processAnchor, hgo, hig, hhb, hbm, check_internal_link_external,
      add_issue]

/-- Witness for C6 at the spec scenario: BaseURL `https://example.com` and
href `https://example.com/blog/post`. -/
theorem c6_disguised_internal_witness :
    ("https://example.com" : String) ≠ ""
      ∧ strStarts "https://" "https://example.com/blog/post" = true
      ∧ strStarts "https://example.com" "https://example.com/blog/post" = true
      ∧ (processAnchor fsDisg "/r" (some "https://example.com") fiA initState
            ⟨"https://example.com/blog/post", []⟩
          = check_internal_link fsDisg "/r"
              (if urlPath "https://example.com/blog/post" = ""
               then "/" else urlPath "https://example.com/blog/post") fiA
              (add_issue initState "WARN"
                ("Internal link using absolute URL: "
                  ++ "https://example.com/blog/post") fiA.rel_path 2)
        ∧ (processAnchor fsDisg "/r" (some "https://example.com") fiA initState
            ⟨"https://example.com/blog/post", []⟩).external_links
          = initState.external_links) :=
  ⟨by decide, by decide, by decide,
    (c6_disguised_internal fsDisg "/r" "https://example.com"
      "https://example.com/blog/post" [] fiA initState (by decide)
      (Or.inr (by decide)) (by decide)).1⟩

/-- C10 — BaseURL matching is a raw string-prefix test: the stored BaseURL
is the detected value with trailing slashes stripped, and any `http(s)`
href that merely extends the BaseURL string — host boundary or not — is
classified as internal: it receives the absolute-URL WARN, its URL path is
fed into internal resolution, and it is never recorded as an external link.
Concretely, with BaseURL `https://example.com`, the foreign-host href
`https://example.community/page` is treated as internal and (no `/page`
existing) produces a dead-internal-link ERROR and no external record. -/
theorem c10_raw_prefix_base (fs : FS) (rootDir b href : String)
    (rel : List String) (fi : FileInfo) (s : AuditState)
    (hb : b ≠ "")
    (hh : strStarts "http://" href = true ∨ strStarts "https://" href = true)
    (hpre : strStarts b href = true) :
    (processAnchor fs rootDir (some b) fi s ⟨href, rel⟩
        = check_internal_link fs rootDir
            (if urlPath href = "" then "/" else urlPath href) fi
            (add_issue s "WARN" ("Internal link using absolute URL: " ++ href)
              fi.rel_path 2)
      ∧ (processAnchor fs rootDir (some b) fi s ⟨href, rel⟩).external_links
          = s.external_links)
    ∧ autoBaseStored "https://example.com/" = "https://example.com"
    ∧ strStarts "https://example.com" "https://example.community/page" = true
    ∧ processAnchor fsDead "/r" (some "https://example.com") fiA initState
        ⟨"https://example.community/page", []⟩
      = ⟨[absUrlWarn "https://example.community/page" "a.html",
          deadLinkIssue "/page" "a.html"], 88, [], []⟩ := by
  rcases http_not_ignored href hh with ⟨hig, hgo⟩
  have hhb : (strStarts "http://" href || strStarts "https://" href) = true := by
    rcases hh with h | h <;> simp [h]
  have hbm : baseMatches (some b) href = true := by
    simp [baseMatches, hb, hpre]
  refine ⟨⟨?_, ?_⟩, by decide, by decide, by decide⟩
  · simp [processAnchor, hgo, hig, hhb, hbm]
  · simp [processAnchor, hgo, hig, hhb, hbm, check_internal_link_external,
      add_issue]

/-- Witness for C10 at the foreign-host example: BaseURL
`https://example.com` and href `https://example.community/page`. -/
theorem c10_raw_prefix_base_witness :
    ("https://example.com" : String) ≠ ""
      ∧ strStarts "https://" "https://example.community/page" = true
      ∧ strStarts "https://example.com" "https://example.community/page" = true
      ∧ (processAnchor fsDead "/r" (some "https://example.com") fiA initState
            ⟨"https://example.community/page", []⟩
          = check_internal_link fsDead "/r"
              (if urlPath "https://example.community/page" = ""
               then "/" else urlPath "https://example.community/page") fiA
              (add_issue initState "WARN"
                ("Internal link using absolute URL: "
                  ++ "https://example.community/page") fiA.rel_path 2)
        ∧ (processAnchor fsDead "/r" (some "https://example.com") fiA initState
            ⟨"https://example.community/page", []⟩).external_links
          = initState.external_links) :=
  ⟨by decide, by decide, by decide,
    (c10_raw_prefix_base fsDead "/r" "https://example.com"
      "https://example.community/page" [] fiA initState (by decide)
      (Or.inr (by decide)) (by decide)).1⟩

/-! ## Orphan detection (C8) -/

theorem orphan_fold_issues (l : List String) (s : AuditState) :
    ((l.foldl
        (fun s o => if o = "/" ∨ o = "/index" then s
          else add_issue s "WARN" ("Orphan page (no incoming links): " ++ o)
            "Structure" 5) s).issues)
      = s.issues ++ (l.filter notHome).map orphanWarn := by
  induction l generalizing s with
  | nil => simp
  | cons o rest ih =>
    by_cases ho : o = "/" ∨ o = "/index"
    · have hpo : notHome o = false := by simp [notHome, ho]
      rw [List.foldl_cons, if_pos ho, ih, List.filter_cons, hpo]
      simp
    · have hpo : notHome o = true := by simp [notHome, ho]
      rw [List.foldl_cons, if_neg ho, ih, List.filter_cons, hpo]
      simp [add_issue, orphanWarn]

/-- C8 — Orphan detection and home exclusion: the orphan set is exactly the
set of discovered page ids with no inbound `LinkEdge` key, without
duplicates; `analyze_orphans` appends exactly one WARN of deduction 5 per
orphan other than the home spellings, and neither `/` nor `/index` is ever
reported, however the root id is spelled. -/
theorem c8_orphan_detection (files : List FileInfo)
    (links : List (String × String)) (s : AuditState) :
    ((analyze_orphans files links s).issues
        = s.issues ++ ((orphanIds files links).filter notHome).map orphanWarn)
      ∧ (∀ o, o ∈ orphanIds files links ↔
          (o ∈ files.map FileInfo.id ∧ o ∉ links.map Prod.fst))
      ∧ (orphanIds files links).Nodup
      ∧ "/" ∉ (orphanIds files links).filter notHome
      ∧ "/index" ∉ (orphanIds files links).filter notHome := by
  refine ⟨orphan_fold_issues _ _, ?_, ?_, ?_, ?_⟩
  · intro o
    simp [orphanIds, List.mem_filter, List.mem_dedup]
  · exact List.Nodup.filter _ (List.nodup_dedup _)
  · intro h
    have := (List.mem_filter.mp h).2
    simp [notHome] at this
  · intro h
    have := (List.mem_filter.mp h).2
    simp [notHome] at this

/-- Witness for C8 at a concrete run: the home page `/` has zero inbound
edges yet only `/a` is reported as an orphan. -/
theorem c8_orphan_detection_witness :
    ((analyze_orphans demoFiles demoLinks initState).issues
        = initState.issues
          ++ ((orphanIds demoFiles demoLinks).filter notHome).map orphanWarn)
      ∧ ("/" ∈ orphanIds demoFiles demoLinks ↔
          ("/" ∈ demoFiles.map FileInfo.id ∧ "/" ∉ demoLinks.map Prod.fst))
      ∧ "/" ∉ (orphanIds demoFiles demoLinks).filter notHome :=
  ⟨(c8_orphan_detection demoFiles demoLinks initState).1,
    (c8_orphan_detection demoFiles demoLinks initState).2.1 "/",
    (c8_orphan_detection demoFiles demoLinks initState).2.2.2.1⟩

/-! ## External-link prober (C9) -/

/-- C9 — Prober fallback and raises-iff: over the items of the
external-link map, the ledger gains exactly one ERROR of deduction 5 per
URL whose probe outcome is not success — the message naming the URL, the
failure cause, and the first three referencing pages with an ellipsis when
more exist — and, for every URL outside the probe-skipping allowlist, the
outcome is non-success exactly under the claim criterion (HEAD status ≥ 400
other than 405/403, fallback GET status ≥ 400, or a transport exception).
Concretely, a URL answering 403 to HEAD and 200 to the fallback GET yields
no issue, while an all-500 network records the ERROR with the truncated
source list. -/
theorem c9_prober_fallback (net : Net) (ext : List (String × List String))
    (s : AuditState) :
    ((check_external_links net ext s).issues
        = s.issues ++ ext.filterMap (fun it =>
            if check_url net it.1 = .inr 200 then none
            else some (brokenIssue it.1 it.2 (check_url net it.1))))
      ∧ (∀ url, allowlisted url = false →
          (check_url net url ≠ .inr 200 ↔ probeNonSuccess net url = true))
      ∧ check_external_links net403 [("https://example.org", ["a.html"])] initState
          = initState
      ∧ (check_external_links net500
            [("https://example.org", ["a.html", "b.html", "c.html", "d.html"])]
            initState).issues
          = [⟨"ERROR",
              "Broken External Link (500): https://example.org (found in a.html, b.html, c.html...)",
              "External", 5⟩] := by
  refine ⟨?_, ?_, by decide, by decide⟩
  · induction ext generalizing s with
    | nil => simp [check_external_links]
    | cons it rest ih =>
      by_cases h : check_url net it.1 = .inr 200
      · simpa [check_external_links, h, List.filterMap_cons] using ih _
      · have step : check_external_links net (it :: rest) s
            = check_external_links net rest
                (add_issue s "ERROR"
                  ("Broken External Link (" ++ statusText (check_url net it.1)
                    ++ "): " ++ it.1 ++ " (found in " ++ sourcesText it.2 ++ ")")
                  "External" 5) := by
          simp [check_external_links, h]
        rw [step, ih]
        simp [add_issue, h, List.filterMap_cons, brokenIssue]
  · intro url hal
    rcases hh : net.head url with e | s1
    · simp [check_url, probeNonSuccess, hh, hal]
    · by_cases h1 : s1 = 405 ∨ s1 = 403
      · rcases hg : net.get url with e2 | s2
        · simp [check_url, probeNonSuccess, hh, hg, hal, h1]
        · by_cases h2 : s2 ≥ 400
          · simp [check_url, probeNonSuccess, hh, hg, hal, h1, h2]
            omega
          · simp [check_url, probeNonSuccess, hh, hg, hal, h1, h2]
      · by_cases h2 : s1 ≥ 400
        · simp [check_url, probeNonSuccess, hh, hal, h1, h2]
          omega
        · simp [check_url, probeNonSuccess, hh, hal, h1, h2]

/-- Witness for C9 at a concrete probe: `https://example.org` is outside the
allowlist, and on the 403-then-200 network the outcome is success on both
sides of the criterion. -/
theorem c9_prober_fallback_witness :
    allowlisted "https://example.org" = false
      ∧ (check_url net403 "https://example.org" ≠ .inr 200 ↔
          probeNonSuccess net403 "https://example.org" = true) :=
  ⟨by decide,
    (c9_prober_fallback net403 [] initState).2.1 "https://example.org" (by decide)⟩

/-! ## PageId derivation lemmas (C2) -/

theorem str_data_inj {a b : String} (h : a.data = b.data) : a = b := by
  cases a
  cases b
  cases h
  rfl

theorem takeWhile_append_stop (p : Char → Bool) (l1 : List Char) (c : Char)
    (l2 : List Char) (h1 : ∀ x ∈ l1, p x = true) (hc : p c = false) :
    (l1 ++ c :: l2).takeWhile p = l1 := by
  induction l1 with
  | nil => simp [List.takeWhile_cons, hc]
  | cons a t ih =>
    have ha := h1 a (by simp)
    simp [List.takeWhile_cons, ha, ih (fun x hx => h1 x (by simp [hx]))]

theorem takeWhile_append_all (p : Char → Bool) (l1 l2 : List Char)
    (h1 : ∀ x ∈ l1, p x = true) :
    (l1 ++ l2).takeWhile p = l1 ++ l2.takeWhile p := by
  induction l1 with
  | nil => simp
  | cons a t ih =>
    have ha := h1 a (by simp)
    simp [List.takeWhile_cons, ha, ih (fun x hx => h1 x (by simp [hx]))]

theorem dropWhile_head_not (p : Char → Bool) (l : List Char)
    (h : ∀ c, l.head? = some c → p c = false) :
    l.dropWhile p = l := by
  cases l with
  | nil => rfl
  | cons a t => simp [List.dropWhile_cons, h a rfl]

theorem basename_append (s b : String) (hb : ∀ c ∈ b.data, c ≠ '/') :
    basename (s ++ "/" ++ b) = b := by
  unfold basename
  have hdata : (s ++ "/" ++ b).data = s.data ++ '/' :: b.data := by
    simp [String.data_append]
  rw [hdata]
  have hrev : (s.data ++ '/' :: b.data).reverse
      = b.data.reverse ++ '/' :: s.data.reverse := by
    simp
  rw [hrev, takeWhile_append_stop _ _ _ _
    (by intro x hx; simpa using hb x (by simpa using hx)) (by simp)]
  apply str_data_inj
  simp

theorem dirname_append (d b : String) (hd : d ≠ "")
    (hlast : d.data.getLast? ≠ some '/') (hb : ∀ c ∈ b.data, c ≠ '/') :
    dirname (d ++ "/" ++ b) = d := by
  have hdne : d.data ≠ [] := by
    intro h
    exact hd (str_data_inj (by simp [h]))
  have hdata : (d ++ "/" ++ b).data = d.data ++ '/' :: b.data := by
    simp [String.data_append]
  have hrev : (d.data ++ '/' :: b.data).reverse
      = b.data.reverse ++ '/' :: d.data.reverse := by simp
  have htw : ((d ++ "/" ++ b).data.reverse.takeWhile (fun c => c ≠ '/'))
      = b.data.reverse := by
    rw [hdata, hrev]
    exact takeWhile_append_stop _ _ _ _
      (by intro x hx; simpa using hb x (by simpa using hx)) (by simp)
  unfold dirname
  rw [htw, hdata]
  have hlen : (d.data ++ '/' :: b.data).length
      = d.data.length + 1 + b.data.length := by
    simp
    omega
  have hne : ¬ (b.data.reverse.length = (d.data ++ '/' :: b.data).length) := by
    rw [hlen]
    simp
  rw [if_neg hne]
  have htake : (d.data ++ '/' :: b.data).take
      ((d.data ++ '/' :: b.data).length - b.data.reverse.length)
      = d.data ++ ['/'] := by
    rw [hlen]
    simp only [List.length_reverse]
    have h1 : d.data.length + 1 + b.data.length - b.data.length
        = d.data.length + 1 := by omega
    rw [h1]
    have h2 : d.data ++ '/' :: b.data = (d.data ++ ['/']) ++ b.data := by simp
    rw [h2]
    have h3 : d.data.length + 1 = (d.data ++ ['/']).length := by simp
    rw [h3, List.take_left]
  rw [htake]
  have hgl := List.getLast?_eq_getLast d.data hdne
  have hc : d.data.getLast hdne ≠ '/' := by
    intro h
    exact hlast (by rw [hgl, h])
  have hmem : d.data.getLast hdne ∈ d.data := List.getLast_mem hdne
  have hall : ((d.data ++ ['/']).all (fun c => c = '/')) = false := by
    rcases Bool.eq_false_or_eq_true ((d.data ++ ['/']).all (fun c => c = '/')) with h | h
    · have := List.all_eq_true.mp h (d.data.getLast hdne) (by simp [hmem])
      simp at this
      exact absurd this hc
    · exact h
  rw [if_neg (by simp [hall])]
  have hrev2 : (d.data ++ ['/']).reverse = '/' :: d.data.reverse := by simp
  rw [hrev2]
  have hdw : ('/' :: d.data.reverse).dropWhile (fun c => c = '/')
      = d.data.reverse.dropWhile (fun c => c = '/') := by
    simp [List.dropWhile_cons]
  rw [hdw, dropWhile_head_not _ _ ?hhead]
  · apply str_data_inj
    simp
  · intro c hhc
    rw [List.head?_reverse, hgl] at hhc
    have hce : d.data.getLast hdne = c := by injection hhc
    exact decide_eq_false_iff_not.mpr (hce ▸ hc)

theorem splitextRoot_append (s : String)
    (hord : (s.data.reverse.takeWhile (fun c => c ≠ '/')).any
        (fun c => c ≠ '.') = true) :
    splitextRoot (s ++ ".html") = s := by
  have hdata : (s ++ ".html").data.reverse
      = ['l', 'm', 't', 'h', '.'] ++ s.data.reverse := by
    simp [String.data_append]
  unfold splitextRoot
  rw [hdata]
  have htw : (['l', 'm', 't', 'h', '.'] ++ s.data.reverse).takeWhile
      (fun c => c ≠ '.') = ['l', 'm', 't', 'h'] := by
    have h0 : (['l', 'm', 't', 'h', '.'] ++ s.data.reverse)
        = ['l', 'm', 't', 'h'] ++ '.' :: s.data.reverse := by simp
    rw [h0]
    exact takeWhile_append_stop _ _ _ _ (by decide) (by decide)
  have hlen : ¬ ((['l', 'm', 't', 'h'] : List Char).length
      = ((['l', 'm', 't', 'h', '.'] : List Char) ++ s.data.reverse).length) := by
    simp
  have hdrop : ((['l', 'm', 't', 'h', '.'] : List Char) ++ s.data.reverse).drop
      ((['l', 'm', 't', 'h'] : List Char).length + 1) = s.data.reverse := by
    have h5 : (['l', 'm', 't', 'h'] : List Char).length + 1
        = (['l', 'm', 't', 'h', '.'] : List Char).length := by decide
    rw [h5, List.drop_left]
  simp only [htw]
  rw [if_neg hlen,
    if_neg (by decide : ¬ (['l', 'm', 't', 'h'] : List Char).contains '/' = true)]
  simp only [hdrop]
  rw [if_neg ?hlast]
  case hlast =>
    intro hcontra
    rcases List.any_eq_true.mp hord with ⟨c, hcm, hcp⟩
    have h2 := List.all_eq_true.mp hcontra c hcm
    rw [decide_eq_true_iff] at h2 hcp
    exact hcp h2
  apply str_data_inj
  simp

theorem collapse_id (l : List Char) (h : noDS l = true) :
    collapseSlashesAux l = l := by
  induction l with
  | nil => rfl
  | cons a t ih =>
    cases t with
    | nil => rfl
    | cons b u =>
      have hab : ¬(a = '/' ∧ b = '/') := by
        intro hand
        rw [noDS, if_pos hand] at h
        exact Bool.false_ne_true h
      have ht : noDS (b :: u) = true := by
        rw [noDS, if_neg hab] at h
        exact h
      simp only [collapseSlashesAux]
      rw [if_neg hab, ih ht]

theorem slash_chain (l : List Char) (hh : l.head? ≠ some '/')
    (hch : noDS l = true) : noDS ('/' :: l) = true := by
  cases l with
  | nil => rfl
  | cons b u =>
    rw [noDS, if_neg ?hne]
    · exact hch
    case hne =>
      intro hand
      exact hh (by simp [hand.2])

theorem collapse_slash_append (x : String) (hh : x.data.head? ≠ some '/')
    (hch : noDS x.data = true) :
    collapseSlashes ("/" ++ x) = "/" ++ x := by
  unfold collapseSlashes
  have hdata : ("/" ++ x).data = '/' :: x.data := by simp [String.data_append]
  rw [hdata, collapse_id _ (slash_chain _ hh hch)]
  apply str_data_inj
  simp [hdata]

theorem pageId_dir (d : String) (hne : d ≠ "")
    (hh : d.data.head? ≠ some '/') (hl : d.data.getLast? ≠ some '/')
    (hch : noDS d.data = true) (hdot : d ≠ ".") :
    pageIdOfRel (d ++ "/index.html") = "/" ++ d := by
  have harg : d ++ "/index.html" = d ++ "/" ++ "index.html" := by
    rw [String.append_assoc]
    rfl
  have hbase := basename_append d "index.html" (by decide)
  have hdir := dirname_append d "index.html" hne hl (by decide)
  have hnd : ¬ ("/" ++ d = "/.") := by
    intro h
    apply hdot
    apply str_data_inj
    have h2 := congrArg String.data h
    simp [String.data_append] at h2
    simp [h2]
  rw [harg]
  unfold pageIdOfRel
  rw [hbase, if_pos rfl, hdir, if_neg hnd]
  exact collapse_slash_append d hh hch

theorem basename_html (s : String) :
    basename (s ++ ".html") = basename s ++ ".html" := by
  unfold basename
  have hdata : (s ++ ".html").data.reverse
      = ['l', 'm', 't', 'h', '.'] ++ s.data.reverse := by
    simp [String.data_append]
  rw [hdata, takeWhile_append_all _ _ _ (by decide)]
  apply str_data_inj
  simp [String.data_append]

theorem pageId_stem (s : String)
    (hh : s.data.head? ≠ some '/') (hch : noDS s.data = true)
    (hidx : basename s ≠ "index")
    (hord : (s.data.reverse.takeWhile (fun c => c ≠ '/')).any
        (fun c => c ≠ '.') = true) :
    pageIdOfRel (s ++ ".html") = "/" ++ s := by
  have hbase : basename (s ++ ".html") ≠ "index.html" := by
    rw [basename_html]
    intro h
    apply hidx
    apply str_data_inj
    have h2 := congrArg String.data h
    rw [String.data_append] at h2
    have h3 : "index.html".data = "index".data ++ ".html".data := by decide
    rw [h3] at h2
    exact List.append_cancel_right h2
  unfold pageIdOfRel
  rw [if_neg hbase, splitextRoot_append s hord]
  exact collapse_slash_append s hh hch

theorem slash_append_cancel {a b : String} (h : "/" ++ a = "/" ++ b) :
    a = b := by
  apply str_data_inj
  have h2 := congrArg String.data h
  simp [String.data_append] at h2
  exact h2

theorem slash_eq_slash_append {d : String} (h : ("/" : String) = "/" ++ d) :
    d = "" := by
  have h2 := congrArg String.data h
  simp [String.data_append] at h2
  apply str_data_inj
  rw [h2]

theorem stem_ne_empty (s : String) (hs : GoodStem s) : s ≠ "" := by
  intro h
  rw [h] at hs
  exact absurd hs.2.2.2 (by decide)

theorem pageId_dir_good (d : String) (hne : d ≠ "") (hd : GoodDirStr d) :
    pageIdOfRel (d ++ "/index.html") = "/" ++ d :=
  pageId_dir d hne hd.1 hd.2.1 hd.2.2.1 hd.2.2.2

theorem pageId_stem_good (s : String) (hs : GoodStem s) :
    pageIdOfRel (s ++ ".html") = "/" ++ s :=
  pageId_stem s hs.1 hs.2.1 hs.2.2.1 hs.2.2.2

/-- C2 counterexample — the claim as stated is false on the code: one
indexing run that walks both `post.html` and `post/index.html` (both
discoverable, neither ignored) produces two distinct PageRecords with the
same id `/post`. -/
theorem c2_pageid_counterexample :
    scan_files "/site" ["post.html", "post/index.html"]
        = [⟨"/site/post.html", "post.html", "/post"⟩,
           ⟨"/site/post/index.html", "post/index.html", "/post"⟩]
      ∧ ("post.html" : String) ≠ "post/index.html"
      ∧ pageIdOfRel "post.html" = pageIdOfRel "post/index.html" := by
  decide

/-- C2 (amended) — PageId uniqueness up to clean-URL conflation: for
well-formed walk paths (relative, normalized, with ordinary basenames), two
distinct discovered files receive the same id only when they form a
clean-URL pair, one spelled `q.html` and the other `q/index.html`; in
particular, distinct directory-index files always receive distinct ids, and
so do distinct ordinary non-index files. -/
theorem c2_pageid_uniqueness_amended (r1 r2 : String)
    (h1 : WfRel r1) (h2 : WfRel r2) (hne : r1 ≠ r2)
    (hid : pageIdOfRel r1 = pageIdOfRel r2) :
    CleanUrlPair r1 r2 := by
  have hroot : pageIdOfRel "index.html" = "/" := by decide
  rcases h1 with rfl | ⟨d1, hd1ne, hd1, rfl⟩ | ⟨s1, hs1, rfl⟩
  · rcases h2 with rfl | ⟨d2, hd2ne, hd2, rfl⟩ | ⟨s2, hs2, rfl⟩
    · exact absurd rfl hne
    · rw [hroot, pageId_dir_good d2 hd2ne hd2] at hid
      exact absurd (slash_eq_slash_append hid) hd2ne
    · rw [hroot, pageId_stem_good s2 hs2] at hid
      exact absurd (slash_eq_slash_append hid) (stem_ne_empty s2 hs2)
  · rcases h2 with rfl | ⟨d2, hd2ne, hd2, rfl⟩ | ⟨s2, hs2, rfl⟩
    · rw [hroot, pageId_dir_good d1 hd1ne hd1] at hid
      exact absurd (slash_eq_slash_append hid.symm) hd1ne
    · rw [pageId_dir_good d1 hd1ne hd1, pageId_dir_good d2 hd2ne hd2] at hid
      exact absurd (by rw [slash_append_cancel hid]) hne
    · rw [pageId_dir_good d1 hd1ne hd1, pageId_stem_good s2 hs2] at hid
      have hds := slash_append_cancel hid
      exact ⟨d1, Or.inr ⟨by rw [hds], rfl⟩⟩
  · rcases h2 with rfl | ⟨d2, hd2ne, hd2, rfl⟩ | ⟨s2, hs2, rfl⟩
    · rw [hroot, pageId_stem_good s1 hs1] at hid
      exact absurd (slash_eq_slash_append hid.symm) (stem_ne_empty s1 hs1)
    · rw [pageId_stem_good s1 hs1, pageId_dir_good d2 hd2ne hd2] at hid
      have hds := slash_append_cancel hid
      exact ⟨s1, Or.inl ⟨rfl, by rw [← hds]⟩⟩
    · rw [pageId_stem_good s1 hs1, pageId_stem_good s2 hs2] at hid
      exact absurd (by rw [slash_append_cancel hid]) hne

/-- Witness for the amended C2 at the colliding pair: `post.html` and
`post/index.html` are both well formed, distinct, share the id `/post`, and
are indeed a clean-URL pair. -/
theorem c2_pageid_uniqueness_amended_witness :
    WfRel "post.html" ∧ WfRel "post/index.html"
      ∧ ("post.html" : String) ≠ "post/index.html"
      ∧ pageIdOfRel "post.html" = pageIdOfRel "post/index.html"
      ∧ CleanUrlPair "post.html" "post/index.html" :=
  ⟨Or.inr (Or.inr ⟨"post", by decide, by decide⟩),
    Or.inr (Or.inl ⟨"post", by decide, by decide, by decide⟩),
    by decide, by decide,
    c2_pageid_uniqueness_amended "post.html" "post/index.html"
      (Or.inr (Or.inr ⟨"post", by decide, by decide⟩))
      (Or.inr (Or.inl ⟨"post", by decide, by decide, by decide⟩))
      (by decide) (by decide)⟩
